import Mathlib

/-!
# Verification of the CLIC bare-metal setup example

Shallow embedding of `example-clic-baremetal.c`: the configuration sequence
executed by `main` (with the compiled-in activation flags
`ACTIVATE_LOCAL_EXT_INTERRUPT = 1`, all others `0`) is modelled as a trace of
register/memory events run over an explicit machine state.  The register
access layer, the `cliccfg` field packers, the global interrupt enable/
disable primitives and the default exception handler are embedded directly
from the source; the CLIC dispatch tie-break rule and the value of the
externally supplied `METAL_MIE_INTERRUPT` constant are modelled from the
specification, since they live outside this repository's sources.
-/

set_option autoImplicit false

/-! ## Constants from the source -/

/-- `#define DISABLE 0` -/
def DISABLE : Nat := 0

/-- `#define ENABLE 1` -/
def ENABLE : Nat := 1

/-- `#define MCAUSE_CAUSE 0x000003FFUL` -/
def MCAUSE_CAUSE : Nat := 0x3FF

/-- `#define MTVEC_MODE_CLIC_VECTORED 0x03` -/
def MTVEC_MODE_CLIC_VECTORED : Nat := 0x03

/-- `#define HART0_CLIC_OFFSET 0x00800000` -/
def HART0_CLIC_OFFSET : Nat := 0x00800000

/-- `#define CLICCFG_NVBITS(x) ((x & 1) << 0)` -/
def CLICCFG_NVBITS (x : Nat) : Nat := (x &&& 1) <<< 0

/-- `#define CLICCFG_NLBITS(x) ((x & 0xF) << 1)` -/
def CLICCFG_NLBITS (x : Nat) : Nat := (x &&& 0xF) <<< 1

/-- `#define CLICCFG_NMBITS(x) ((x & 0x3) << 5)` -/
def CLICCFG_NMBITS (x : Nat) : Nat := (x &&& 0x3) <<< 5

/-- Modelled from the spec: `METAL_MIE_INTERRUPT` is supplied by the external
BSP headers (`metal/machine.h`), which are not part of this repository.  The
spec describes it as the machine-interrupt-enable bit of the machine status
register, i.e. `mstatus.MIE`, which is bit 3, mask `8`. -/
def METAL_MIE_INTERRUPT : Nat := 8

/-- CSR number of `mstatus` (the target of `csrrs/csrrc mstatus` in
`interrupt_global_enable` / `interrupt_global_disable`). -/
def mstatusCSR : Nat := 0x300

/-- CSR number of `mtvec` (the target of `write_csr(mtvec, ...)`). -/
def mtvecCSR : Nat := 0x305

/-- CSR number of `mtvt`: the source writes the literal CSR number 0x307
(`write_csr (0x307, mtvt_base)`). -/
def mtvtCSR : Nat := 0x307

/-! ## Platform parameters

The BSP-generated base addresses, offsets and sizes
(`METAL_SIFIVE_CLIC0_*`), together with the link-time addresses of the
handlers and the vector table, are external inputs to the program.  They are
collected in a structure so every theorem about the setup sequence holds for
an arbitrary platform. -/

structure Platform where
  /-- `METAL_SIFIVE_CLIC0_0_BASE_ADDRESS` -/
  clicBase : Nat
  /-- `METAL_SIFIVE_CLIC0_CLICINTIP_BASE` -/
  clicintipBase : Nat
  /-- `METAL_SIFIVE_CLIC0_CLICINTIE_BASE` -/
  clicintieBase : Nat
  /-- `METAL_SIFIVE_CLIC0_CLICINTCTL_BASE` -/
  clicintctlBase : Nat
  /-- `METAL_SIFIVE_CLIC0_CLICCFG` -/
  cliccfgOffset : Nat
  /-- `METAL_SIFIVE_CLIC0_2000000_SIFIVE_NUMINTS`, i.e.
  `CLIC_VECTOR_TABLE_SIZE_MAX`, the maximum supported source count. -/
  numints : Nat
  /-- link-time address `&default_exception_handler` -/
  defaultHandlerAddr : Nat
  /-- link-time address `&lc0_handler` -/
  lc0HandlerAddr : Nat
  /-- link-time address `&__mtvt_clic_vector_table` -/
  tableBase : Nat

/-- `#define HART0_CLIC_BASE_ADDR (CLIC_BASE_ADDR + HART0_CLIC_OFFSET)` -/
def HART0_CLIC_BASE_ADDR (p : Platform) : Nat := p.clicBase + HART0_CLIC_OFFSET

/-- `#define HART0_CLICINTIP_ADDR(n) (HART0_CLIC_BASE_ADDR + CLICINTIP_BASE + n)` -/
def HART0_CLICINTIP_ADDR (p : Platform) (n : Nat) : Nat :=
  HART0_CLIC_BASE_ADDR p + p.clicintipBase + n

/-- `#define HART0_CLICINTIE_ADDR(n) (HART0_CLIC_BASE_ADDR + CLICINTIE_BASE + n)` -/
def HART0_CLICINTIE_ADDR (p : Platform) (n : Nat) : Nat :=
  HART0_CLIC_BASE_ADDR p + p.clicintieBase + n

/-- `#define HART0_CLICINTCFG_ADDR(n) (HART0_CLIC_BASE_ADDR + CLICINTCTL_BASE + n)` -/
def HART0_CLICINTCFG_ADDR (p : Platform) (n : Nat) : Nat :=
  HART0_CLIC_BASE_ADDR p + p.clicintctlBase + n

/-- `#define HART0_CLICCFG_ADDR (HART0_CLIC_BASE_ADDR + CLICCFG)` -/
def HART0_CLICCFG_ADDR (p : Platform) : Nat :=
  HART0_CLIC_BASE_ADDR p + p.cliccfgOffset

/-! ## Events and machine state -/

/-- One observable hardware access performed by the program: a CSR
clear/set/write (`csrrc`, `csrrs`, `csrw`), a byte store through
`write_byte`, or a store into a slot of `__mtvt_clic_vector_table`. -/
inductive Event where
  | csrClear   (csr mask : Nat) : Event
  | csrSet     (csr mask : Nat) : Event
  | csrWrite   (csr val : Nat) : Event
  | writeByte  (addr data : Nat) : Event
  | tableWrite (idx val : Nat) : Event
deriving DecidableEq, Repr

/-- Machine state visible to the setup sequence: the CSR file, the
memory-mapped byte registers, and the vector table (one `uintptr_t` slot per
source ID). -/
structure MachineState where
  csrs : Nat → Nat
  mem : Nat → Nat
  table : Nat → Nat

/-- Clear in `m` the bits set in `mask` (the effect of `csrrc` on a CSR):
`m AND NOT mask`, expressed over `Nat` as `m XOR (m AND mask)`. -/
def clearBits (m mask : Nat) : Nat := m ^^^ (m &&& mask)

/-- Effect of one event on the machine state.  A `writeByte` stores through a
`volatile uint8_t *`, hence truncates the data modulo 256. -/
def step (s : MachineState) : Event → MachineState
  | .csrClear c mask =>
      { s with csrs := fun x => if x = c then clearBits (s.csrs c) mask else s.csrs x }
  | .csrSet c mask =>
      { s with csrs := fun x => if x = c then s.csrs c ||| mask else s.csrs x }
  | .csrWrite c v =>
      { s with csrs := fun x => if x = c then v else s.csrs x }
  | .writeByte a d =>
      { s with mem := fun x => if x = a then d % 256 else s.mem x }
  | .tableWrite i v =>
      { s with table := fun x => if x = i then v else s.table x }

/-- Run a list of events in order from a starting state. -/
def run (s : MachineState) (es : List Event) : MachineState := es.foldl step s

/-! ## The setup sequence of `main`

With the compiled-in activation flags (`ACTIVATE_LOCAL_EXT_INTERRUPT = 1`,
all other `ACTIVATE_*` flags `0`), `main` performs, in order:
global disable; `mtvec` write; `mtvt` write; the vector-table reset loop;
the `cliccfg` write; the local-external-interrupt block for source 16
(`clicintcfg` byte, table slot, `clicintie` byte); global enable. -/

/-- `interrupt_global_disable()`: `csrrc mstatus, METAL_MIE_INTERRUPT`. -/
def globalDisableEvent : Event := .csrClear mstatusCSR METAL_MIE_INTERRUPT

/-- `interrupt_global_enable()`: `csrrs mstatus, METAL_MIE_INTERRUPT`. -/
def globalEnableEvent : Event := .csrSet mstatusCSR METAL_MIE_INTERRUPT

/-- The reset loop
`for (i = 0; i < CLIC_VECTOR_TABLE_SIZE_MAX; i++) table[i] = &default_exception_handler;`. -/
def resetTableEvents (p : Platform) : List Event :=
  (List.range p.numints).map (fun i => .tableWrite i p.defaultHandlerAddr)

/-- `cliccfg = (CLICCFG_NVBITS(0) | CLICCFG_NLBITS(0) | CLICCFG_NMBITS(0));` -/
def cliccfgValue : Nat := CLICCFG_NVBITS 0 ||| CLICCFG_NLBITS 0 ||| CLICCFG_NMBITS 0

/-- Everything `main` does between the global disable and the global enable. -/
def setupEvents (p : Platform) : List Event :=
  [ .csrWrite mtvecCSR (p.defaultHandlerAddr ||| MTVEC_MODE_CLIC_VECTORED),
    .csrWrite mtvtCSR p.tableBase ]
  ++ resetTableEvents p
  ++ [ .writeByte (HART0_CLICCFG_ADDR p) cliccfgValue,
       .writeByte (HART0_CLICINTCFG_ADDR p 16) 255,
       .tableWrite 16 p.lc0HandlerAddr,
       .writeByte (HART0_CLICINTIE_ADDR p 16) ENABLE ]

/-- The full configuration trace of `main`, from `interrupt_global_disable()`
through `interrupt_global_enable()`. -/
def mainTrace (p : Platform) : List Event :=
  globalDisableEvent :: setupEvents p ++ [globalEnableEvent]

/-- Does an event read-modify-write or write the `mstatus` CSR? -/
def touchesMstatus : Event → Bool
  | .csrClear c _ => c == mstatusCSR
  | .csrSet c _ => c == mstatusCSR
  | .csrWrite c _ => c == mstatusCSR
  | _ => false

/-- The byte stores (`write_byte` calls) of a trace, in order, as
address/data pairs. -/
def byteWrites : List Event → List (Nat × Nat)
  | [] => []
  | .writeByte a d :: es => (a, d) :: byteWrites es
  | _ :: es => byteWrites es

/-- A concrete platform instance (demo values in the style of the SiFive
`clic0@2000000` device) used to witness the platform-generic theorems. -/
def demoPlatform : Platform where
  clicBase := 0x2000000
  clicintipBase := 0x000
  clicintieBase := 0x400
  clicintctlBase := 0x800
  cliccfgOffset := 0xC00
  numints := 20
  defaultHandlerAddr := 0x80000040
  lc0HandlerAddr := 0x80000100
  tableBase := 0x80001000

/-- A concrete all-zero starting machine state for witnesses. -/
def zeroState : MachineState where
  csrs := fun _ => 0
  mem := fun _ => 0
  table := fun _ => 0

example : cliccfgValue = 0 := by decide
example : (mainTrace demoPlatform).length = 28 := by decide

/-! ## The global interrupt enable/disable primitives

`interrupt_global_enable` is `csrrs mstatus, METAL_MIE_INTERRUPT`;
`interrupt_global_disable` is `csrrc mstatus, METAL_MIE_INTERRUPT`.  Their
effect on the `mstatus` value is embedded as pure functions. -/

/-- Effect of `interrupt_global_enable()` on the `mstatus` value. -/
def interrupt_global_enable (m : Nat) : Nat := m ||| METAL_MIE_INTERRUPT

/-- Effect of `interrupt_global_disable()` on the `mstatus` value. -/
def interrupt_global_disable (m : Nat) : Nat := clearBits m METAL_MIE_INTERRUPT

/-! ## Helper lemmas -/

theorem testBit_clearBits (m mask i : Nat) :
    (clearBits m mask).testBit i = (m.testBit i && !(mask.testBit i)) := by
  simp only [clearBits, Nat.testBit_xor, Nat.testBit_and]
  cases m.testBit i <;> cases mask.testBit i <;> rfl

theorem clearBits_and_mask (m mask : Nat) : clearBits m mask &&& mask = 0 := by
  apply Nat.eq_of_testBit_eq
  intro i
  simp only [Nat.testBit_and, testBit_clearBits, Nat.zero_testBit]
  cases m.testBit i <;> cases mask.testBit i <;> rfl

theorem run_append (s : MachineState) (es₁ es₂ : List Event) :
    run s (es₁ ++ es₂) = run (run s es₁) es₂ := by
  simp [run, List.foldl_append]

theorem step_csrs_of_not_touches (s : MachineState) {e : Event}
    (h : touchesMstatus e = false) : (step s e).csrs mstatusCSR = s.csrs mstatusCSR := by
  cases e with
  | csrClear c mask =>
      have hc : c ≠ mstatusCSR := by simpa [touchesMstatus] using h
      simp only [step]
      rw [if_neg (fun hx => hc hx.symm)]
  | csrSet c mask =>
      have hc : c ≠ mstatusCSR := by simpa [touchesMstatus] using h
      simp only [step]
      rw [if_neg (fun hx => hc hx.symm)]
  | csrWrite c v =>
      have hc : c ≠ mstatusCSR := by simpa [touchesMstatus] using h
      simp only [step]
      rw [if_neg (fun hx => hc hx.symm)]
  | writeByte a d => rfl
  | tableWrite i v => rfl

theorem run_csrs_of_not_touches (es : List Event)
    (h : ∀ e ∈ es, touchesMstatus e = false) (s : MachineState) :
    (run s es).csrs mstatusCSR = s.csrs mstatusCSR := by
  induction es generalizing s with
  | nil => rfl
  | cons e es ih =>
      have he : touchesMstatus e = false := h e (List.mem_cons_self _ _)
      have hes : ∀ e' ∈ es, touchesMstatus e' = false :=
        fun e' he' => h e' (List.mem_cons_of_mem _ he')
      calc (run (step s e) es).csrs mstatusCSR
          = (step s e).csrs mstatusCSR := ih hes (step s e)
        _ = s.csrs mstatusCSR := step_csrs_of_not_touches s he

theorem setupEvents_not_touches (p : Platform) :
    ∀ e ∈ setupEvents p, touchesMstatus e = false := by
  intro e he
  rw [setupEvents] at he
  rcases List.mem_append.1 he with h | h
  · rcases List.mem_append.1 h with h' | h'
    · simp only [List.mem_cons, List.not_mem_nil, or_false] at h'
      rcases h' with h'' | h'' <;> (subst h''; rfl)
    · rcases List.mem_map.1 h' with ⟨i, _, hie⟩
      rw [← hie]; rfl
  · simp only [List.mem_cons, List.not_mem_nil, or_false] at h
    rcases h with h' | h' | h' | h' <;> (subst h'; rfl)

theorem mie_after_disable (s : MachineState) :
    (step s globalDisableEvent).csrs mstatusCSR &&& METAL_MIE_INTERRUPT = 0 := by
  simp [step, globalDisableEvent, clearBits_and_mask]

/-- The portion of `main`'s trace up to and including the vector-table reset
loop: global disable, `mtvec` write, `mtvt` write, then the reset loop. -/
def resetPhase (p : Platform) : List Event :=
  globalDisableEvent ::
    ([ Event.csrWrite mtvecCSR (p.defaultHandlerAddr ||| MTVEC_MODE_CLIC_VECTORED),
       Event.csrWrite mtvtCSR p.tableBase ] ++ resetTableEvents p)

/-- The `cliccfg` write followed by the local-external-interrupt arming block
for source 16. -/
def armPhase (p : Platform) : List Event :=
  [ .writeByte (HART0_CLICCFG_ADDR p) cliccfgValue,
    .writeByte (HART0_CLICINTCFG_ADDR p 16) 255,
    .tableWrite 16 p.lc0HandlerAddr,
    .writeByte (HART0_CLICINTIE_ADDR p 16) ENABLE ]

theorem mainTrace_phases (p : Platform) :
    mainTrace p = resetPhase p ++ (armPhase p ++ [globalEnableEvent]) := by
  simp [mainTrace, setupEvents, resetPhase, armPhase]

theorem run_tableWrites_table (v : Nat) (l : List Nat) (s : MachineState) (j : Nat) :
    (run s (l.map (fun i => Event.tableWrite i v))).table j
      = if j ∈ l then v else s.table j := by
  induction l generalizing s with
  | nil => simp [run]
  | cons i l ih =>
      show (run (step s (Event.tableWrite i v)) (l.map _)).table j = _
      rw [ih]
      by_cases hj : j ∈ l
      · simp [hj]
      · by_cases hji : j = i
        · subst hji; simp [hj, step]
        · simp [hj, hji, step]

/-! ## Claims -/

/-- C10: `interrupt_global_disable` clears, and `interrupt_global_enable`
sets, exactly the machine-interrupt-enable bit (bit 3) of the `mstatus`
value, leaving every other bit unchanged, and each is idempotent. -/
theorem C10_mie_bit_only (m : Nat) :
    (interrupt_global_disable m).testBit 3 = false ∧
    (interrupt_global_enable m).testBit 3 = true ∧
    (∀ i, i ≠ 3 → (interrupt_global_disable m).testBit i = m.testBit i ∧
                  (interrupt_global_enable m).testBit i = m.testBit i) ∧
    interrupt_global_disable (interrupt_global_disable m) = interrupt_global_disable m ∧
    interrupt_global_enable (interrupt_global_enable m) = interrupt_global_enable m := by
  have h8 : METAL_MIE_INTERRUPT = 2 ^ 3 := rfl
  have h3 : Nat.testBit METAL_MIE_INTERRUPT 3 = true := by decide
  refine ⟨?_, ?_, ?_, ?_, ?_⟩
  · rw [interrupt_global_disable, testBit_clearBits, h3]
    cases m.testBit 3 <;> rfl
  · rw [interrupt_global_enable, Nat.testBit_or, h3]
    cases m.testBit 3 <;> rfl
  · intro i hi
    have hb : METAL_MIE_INTERRUPT.testBit i = false := by
      rw [h8]; exact Nat.testBit_two_pow_of_ne (fun h => hi h.symm)
    constructor
    · simp [interrupt_global_disable, testBit_clearBits, hb]
    · simp [interrupt_global_enable, Nat.testBit_or, hb]
  · apply Nat.eq_of_testBit_eq
    intro i
    simp only [interrupt_global_disable, testBit_clearBits]
    cases m.testBit i <;> cases METAL_MIE_INTERRUPT.testBit i <;> rfl
  · apply Nat.eq_of_testBit_eq
    intro i
    simp only [interrupt_global_enable, Nat.testBit_or]
    cases m.testBit i <;> cases METAL_MIE_INTERRUPT.testBit i <;> rfl

/-- Witness for C10 at the concrete `mstatus` value `0xBB`. -/
theorem C10_mie_bit_only_witness :
    (interrupt_global_disable 0xBB).testBit 3 = false ∧
    (interrupt_global_enable 0xBB).testBit 1 = Nat.testBit 0xBB 1 :=
  ⟨(C10_mie_bit_only 0xBB).1, ((C10_mie_bit_only 0xBB).2.2.1 1 (by decide)).2⟩

/-- C1: the setup trace starts with the global interrupt disable and ends
with the global interrupt enable; every event in between is a configuration
write that does not touch `mstatus`; and at every intermediate point of the
masked region (after the disable, before the enable) the
machine-interrupt-enable bit of `mstatus` reads zero, so no configuration
write executes while global interrupts are enabled. -/
theorem C1_config_within_masked_region (p : Platform) (s : MachineState) (k : Nat) :
    (mainTrace p).head? = some globalDisableEvent ∧
    (mainTrace p).getLast? = some globalEnableEvent ∧
    (∀ e ∈ setupEvents p, touchesMstatus e = false) ∧
    (run s (globalDisableEvent :: (setupEvents p).take k)).csrs mstatusCSR &&&
      METAL_MIE_INTERRUPT = 0 := by
  refine ⟨rfl, ?_, setupEvents_not_touches p, ?_⟩
  · rw [mainTrace, List.getLast?_concat]
  · have hrun : run s (globalDisableEvent :: (setupEvents p).take k)
        = run (step s globalDisableEvent) ((setupEvents p).take k) := rfl
    rw [hrun, run_csrs_of_not_touches _
      (fun e he => setupEvents_not_touches p e (List.mem_of_mem_take he)) _]
    exact mie_after_disable s

/-- C2: after the reset phase of `main` (the startup reset of the vector
table), every vector-table slot with index below the maximum supported
source count holds the default exception handler's address; the reset phase
is literally the leading portion of `main`'s trace. -/
theorem C2_reset_all_default (p : Platform) (s : MachineState) (i : Nat)
    (hi : i < p.numints) :
    (run s (resetPhase p)).table i = p.defaultHandlerAddr ∧
    mainTrace p = resetPhase p ++ (armPhase p ++ [globalEnableEvent]) := by
  refine ⟨?_, mainTrace_phases p⟩
  show (run (step (step (step s globalDisableEvent) _) _) (resetTableEvents p)).table i = _
  rw [resetTableEvents, run_tableWrites_table]
  simp [List.mem_range, hi]

/-- Witness for C2: at the demo platform, slot 7 holds the default handler
address after the reset phase. -/
theorem C2_reset_all_default_witness :
    (run zeroState (resetPhase demoPlatform)).table 7 = demoPlatform.defaultHandlerAddr :=
  (C2_reset_all_default demoPlatform zeroState 7 (by decide)).1

theorem resetPhase_length (p : Platform) : (resetPhase p).length = 3 + p.numints := by
  simp [resetPhase, resetTableEvents]
  omega

/-- C3 counterexample: the claim "the trap-entry configuration executes
after the vector table has been fully reset" is false on the code.  At the
demo platform, the `mtvec` write sits at index 1 of the trace while the
reset write of slot 0 sits at the later index 3, so it is not the case that
every reset write precedes the trap-vector write. -/
theorem C3_counterexample :
    ¬ (∀ i j : Nat,
        (mainTrace demoPlatform)[i]? = some (Event.csrWrite mtvecCSR
          (demoPlatform.defaultHandlerAddr ||| MTVEC_MODE_CLIC_VECTORED)) →
        (mainTrace demoPlatform)[j]? =
          some (Event.tableWrite 0 demoPlatform.defaultHandlerAddr) →
        j < i) := by
  intro h
  have h13 := h 1 3 (by decide) (by decide)
  omega

/-- C3 amended: the trap-entry configuration (the `mtvec` write at index 1
and the `mtvt` write at index 2) executes after the global interrupt
disable (index 0) and before any per-source enable write, but it precedes
(rather than follows) the vector-table reset, whose first write sits at
index 3. -/
theorem C3_trap_entry_order (p : Platform) (h : 0 < p.numints) :
    (mainTrace p)[0]? = some globalDisableEvent ∧
    (mainTrace p)[1]? = some (Event.csrWrite mtvecCSR
      (p.defaultHandlerAddr ||| MTVEC_MODE_CLIC_VECTORED)) ∧
    (mainTrace p)[2]? = some (Event.csrWrite mtvtCSR p.tableBase) ∧
    (mainTrace p)[3]? = some (Event.tableWrite 0 p.defaultHandlerAddr) ∧
    (∀ j, (mainTrace p)[j]? =
        some (Event.writeByte (HART0_CLICINTIE_ADDR p 16) ENABLE) → 2 < j) := by
  obtain ⟨k, hk⟩ : ∃ k, p.numints = k + 1 := ⟨p.numints - 1, by omega⟩
  refine ⟨rfl, rfl, ?_, ?_, ?_⟩
  · simp [mainTrace, setupEvents]
  · simp [mainTrace, setupEvents, resetTableEvents, hk, List.range_succ_eq_map]
  · intro j hj
    by_contra hlt
    push_neg at hlt
    interval_cases j <;> simp [mainTrace, setupEvents, globalDisableEvent] at hj

/-- Witness for C3 (amended) at the demo platform. -/
theorem C3_trap_entry_order_witness :
    (mainTrace demoPlatform)[3]? =
      some (Event.tableWrite 0 demoPlatform.defaultHandlerAddr) ∧
    2 < 26 :=
  ⟨(C3_trap_entry_order demoPlatform (by decide)).2.2.2.1,
   (C3_trap_entry_order demoPlatform (by decide)).2.2.2.2 26 (by decide)⟩

/-- C4: for the one source the setup sequence arms (ID 16), the write of its
level/priority control byte (`clicintcfg`, trace index `4 + numints`)
occurs strictly before the write that sets its enable bit (`clicintie`,
trace index `6 + numints`). -/
theorem C4_cfg_before_enable (p : Platform) :
    (mainTrace p)[4 + p.numints]? =
      some (Event.writeByte (HART0_CLICINTCFG_ADDR p 16) 255) ∧
    (mainTrace p)[6 + p.numints]? =
      some (Event.writeByte (HART0_CLICINTIE_ADDR p 16) ENABLE) ∧
    4 + p.numints < 6 + p.numints := by
  refine ⟨?_, ?_, by omega⟩
  · rw [mainTrace_phases,
      List.getElem?_append_right (by rw [resetPhase_length]; omega),
      resetPhase_length, show 4 + p.numints - (3 + p.numints) = 1 by omega]
    rfl
  · rw [mainTrace_phases,
      List.getElem?_append_right (by rw [resetPhase_length]; omega),
      resetPhase_length, show 6 + p.numints - (3 + p.numints) = 3 by omega]
    rfl

/-- C6: the `cliccfg` packers place `(v & 1)` at bit 0, `(l & 0xF)` at bits
4..1 and `(m & 0x3)` at bits 6..5 of the packed byte, and the policy value
actually written (`NVBITS(0) | NLBITS(0) | NMBITS(0)`) is `0`; the trace
writes that byte to the controller-wide configuration register address. -/
theorem and_fifteen_is_mod (x : Nat) : x &&& 15 = x % 16 := by
  have h := Nat.and_pow_two_sub_one_eq_mod x 4
  norm_num at h
  exact h

theorem and_three_is_mod (x : Nat) : x &&& 3 = x % 4 := by
  have h := Nat.and_pow_two_sub_one_eq_mod x 2
  norm_num at h
  exact h

/-- The packed `cliccfg` byte equals the arithmetic concatenation of its
three fields: `NVBITS` at bit 0, `NLBITS` at bits 4..1 and `NMBITS` at
bits 6..5. -/
theorem cliccfg_pack_arith (v l m : Nat) :
    CLICCFG_NVBITS v ||| CLICCFG_NLBITS l ||| CLICCFG_NMBITS m
      = 32 * (m % 4) + (2 * (l % 16) + v % 2) := by
  have ha : v % 2 < 2 := Nat.mod_lt v (by norm_num)
  have hb : l % 16 < 16 := Nat.mod_lt l (by norm_num)
  rw [CLICCFG_NVBITS, CLICCFG_NLBITS, CLICCFG_NMBITS, Nat.shiftLeft_zero,
    Nat.shiftLeft_eq, Nat.shiftLeft_eq, Nat.and_one_is_mod,
    and_fifteen_is_mod, and_three_is_mod]
  have o1 : (2 : Nat) ^ 1 * (l % 16) + v % 2 = 2 ^ 1 * (l % 16) ||| v % 2 :=
    Nat.mul_add_lt_is_or (by norm_num; omega) (l % 16)
  have o2 : (2 : Nat) ^ 5 * (m % 4) + (2 ^ 1 * (l % 16) + v % 2)
      = 2 ^ 5 * (m % 4) ||| (2 ^ 1 * (l % 16) + v % 2) :=
    Nat.mul_add_lt_is_or (by norm_num; omega) (m % 4)
  calc v % 2 ||| l % 16 * 2 ^ 1 ||| m % 4 * 2 ^ 5
      = (2 ^ 1 * (l % 16) ||| v % 2) ||| 2 ^ 5 * (m % 4) := by
        rw [Nat.or_comm (v % 2), Nat.mul_comm (l % 16), Nat.mul_comm (m % 4)]
    _ = 2 ^ 5 * (m % 4) ||| (2 ^ 1 * (l % 16) ||| v % 2) := Nat.or_comm _ _
    _ = 2 ^ 5 * (m % 4) ||| (2 ^ 1 * (l % 16) + v % 2) := by rw [← o1]
    _ = 2 ^ 5 * (m % 4) + (2 ^ 1 * (l % 16) + v % 2) := by rw [← o2]
    _ = 32 * (m % 4) + (2 * (l % 16) + v % 2) := by norm_num

/-- C6: the global-configuration byte packs `(v & 1)` at bit 0, `(l & 0xF)`
at bits 4..1 and `(m & 0x3)` at bits 6..5 — reading each field back out of
the packed byte recovers the masked input — and the policy value actually
used (`NVBITS(0) | NLBITS(0) | NMBITS(0)`) is `0`, which is the byte the
trace writes to the controller-wide configuration register address. -/
theorem C6_cliccfg_packing (v l m : Nat) :
    (CLICCFG_NVBITS v ||| CLICCFG_NLBITS l ||| CLICCFG_NMBITS m) &&& 1
      = v &&& 1 ∧
    ((CLICCFG_NVBITS v ||| CLICCFG_NLBITS l ||| CLICCFG_NMBITS m) >>> 1) &&& 0xF
      = l &&& 0xF ∧
    ((CLICCFG_NVBITS v ||| CLICCFG_NLBITS l ||| CLICCFG_NMBITS m) >>> 5) &&& 0x3
      = m &&& 0x3 ∧
    cliccfgValue = 0 ∧
    (∀ p : Platform, (mainTrace p)[3 + p.numints]? =
        some (Event.writeByte (HART0_CLICCFG_ADDR p) cliccfgValue)) := by
  refine ⟨?_, ?_, ?_, by decide, ?_⟩
  · rw [cliccfg_pack_arith, Nat.and_one_is_mod, Nat.and_one_is_mod]
    omega
  · rw [cliccfg_pack_arith, Nat.shiftRight_eq_div_pow,
      and_fifteen_is_mod, and_fifteen_is_mod]
    norm_num
    omega
  · rw [cliccfg_pack_arith, Nat.shiftRight_eq_div_pow,
      and_three_is_mod, and_three_is_mod]
    norm_num
    omega
  · intro p
    rw [mainTrace_phases,
      List.getElem?_append_right (by rw [resetPhase_length]),
      resetPhase_length, Nat.sub_self]
    rfl

/-! ## The register access layer (`write_byte` / `read_byte`)

`write_byte(addr, data)` is `(*(volatile uint8_t *)(addr)) = data`: the
stored value is the data truncated to eight bits.  `read_byte(addr)` is
`*(volatile uint8_t *)(addr)`. -/

/-- `#define write_byte(addr, data) ((*(volatile uint8_t *)(addr)) = data)` -/
def write_byte (mem : Nat → Nat) (addr data : Nat) : Nat → Nat :=
  fun x => if x = addr then data % 256 else mem x

/-- `#define read_byte(addr) (*(volatile uint8_t *)(addr))` -/
def read_byte (mem : Nat → Nat) (addr : Nat) : Nat := mem addr

/-- C7 counterexample: the out-of-width value 300 passed to `write_byte` is
not rejected: it is truncated and stored, so the read-back yields 44, which
is neither the written value nor the original memory content 0. -/
theorem C7_counterexample :
    read_byte (write_byte (fun _ => 0) 19 300) 19 = 44 ∧ 44 ≠ 300 ∧ 44 ≠ 0 := by
  refine ⟨?_, by decide, by decide⟩
  simp [read_byte, write_byte]

/-- C7 amended: writing a control byte with a value `v` legal for the byte
width (`v < 256`) and reading it back yields `v`; an out-of-width value is
not rejected but truncated modulo 256 and written. -/
theorem C7_byte_roundtrip (mem : Nat → Nat) (addr v : Nat) (hv : v < 256) :
    read_byte (write_byte mem addr v) addr = v ∧
    (∀ w, read_byte (write_byte mem addr w) addr = w % 256) := by
  constructor
  · simp [read_byte, write_byte, Nat.mod_eq_of_lt hv]
  · intro w
    simp [read_byte, write_byte]

/-- Witness for C7 (amended) at `v = 200`. -/
theorem C7_byte_roundtrip_witness :
    read_byte (write_byte (fun _ => 0) 5 200) 5 = 200 :=
  (C7_byte_roundtrip (fun _ => 0) 5 200 (by decide)).1

/-! ## The default exception path -/

/-- The three CSRs read by `default_exception_handler`. -/
structure CsrFile where
  mcause : Nat
  mepc : Nat
  mtval : Nat
deriving DecidableEq, Repr

/-- Control state of `default_exception_handler`: a location counter and the
four captured locals (`mcause`, `mepc`, `mtval`, `code`). -/
structure HandlerState where
  loc : Nat
  mcauseVar : Option Nat
  mepcVar : Option Nat
  mtvalVar : Option Nat
  codeVar : Option Nat
deriving DecidableEq, Repr

/-- State at entry to `default_exception_handler`. -/
def handlerInit : HandlerState := ⟨0, none, none, none, none⟩

/-- One step of `default_exception_handler`: locations 0..2 read `mcause`,
`mepc` and `mtval`; location 3 computes `code = MCAUSE_CODE(mcause)`;
location 4 is `while (1);`, which changes nothing and stays at location 4,
so the handler never returns and performs no further writes. -/
def default_exception_handler_step (csr : CsrFile) (h : HandlerState) : HandlerState :=
  match h.loc with
  | 0 => { h with loc := 1, mcauseVar := some csr.mcause }
  | 1 => { h with loc := 2, mepcVar := some csr.mepc }
  | 2 => { h with loc := 3, mtvalVar := some csr.mtval }
  | 3 => { h with loc := 4, codeVar := some ((h.mcauseVar.getD 0) &&& MCAUSE_CAUSE) }
  | _ => h

/-- `n` steps of `default_exception_handler` from entry. -/
def handlerRun (csr : CsrFile) : Nat → HandlerState
  | 0 => handlerInit
  | n + 1 => default_exception_handler_step csr (handlerRun csr n)

/-- C8: on entry the default exception path reads the cause, faulting
address and trap value registers and computes the cause code; from step 4
onward, for every number of further steps, the state is unchanged: the
location stays at the infinite idle loop (never returning) and the captured
diagnostic values are preserved. -/
theorem C8_default_handler_halts (csr : CsrFile) (n : Nat) (hn : 4 ≤ n) :
    handlerRun csr n =
      ⟨4, some csr.mcause, some csr.mepc, some csr.mtval,
        some (csr.mcause &&& MCAUSE_CAUSE)⟩ := by
  obtain ⟨k, rfl⟩ : ∃ k, n = 4 + k := ⟨n - 4, by omega⟩
  clear hn
  induction k with
  | zero => rfl
  | succ k ih =>
      show default_exception_handler_step csr (handlerRun csr (4 + k)) = _
      rw [ih]
      rfl

/-- Witness for C8 at a concrete CSR snapshot and 6 steps. -/
theorem C8_default_handler_halts_witness :
    handlerRun ⟨0x8000000B, 0x80000200, 0x12⟩ 6 =
      ⟨4, some 0x8000000B, some 0x80000200, some 0x12,
        some (0x8000000B &&& MCAUSE_CAUSE)⟩ :=
  C8_default_handler_halts ⟨0x8000000B, 0x80000200, 0x12⟩ 6 (by decide)

theorem run_resetPhase_table (p : Platform) (s : MachineState) (j : Nat) :
    (run s (resetPhase p)).table j =
      if j < p.numints then p.defaultHandlerAddr else s.table j := by
  show (run (step (step (step s globalDisableEvent) _) _) (resetTableEvents p)).table j = _
  rw [resetTableEvents, run_tableWrites_table]
  simp [step, globalDisableEvent, List.mem_range]

theorem run_armPhase_table (p : Platform) (x : MachineState) (j : Nat) :
    (run x (armPhase p)).table j = if j = 16 then p.lc0HandlerAddr else x.table j := by
  simp only [armPhase, run, List.foldl_cons, List.foldl_nil]
  simp [step]

theorem run_mainTrace_table (p : Platform) (s : MachineState) (j : Nat) :
    (run s (mainTrace p)).table j =
      if j = 16 then p.lc0HandlerAddr
      else if j < p.numints then p.defaultHandlerAddr else s.table j := by
  rw [mainTrace_phases, run_append, run_append]
  have hen : ∀ x : MachineState, (run x [globalEnableEvent]).table j = x.table j :=
    fun x => rfl
  rw [hen, run_armPhase_table, run_resetPhase_table]

theorem byteWrites_append (l₁ l₂ : List Event) :
    byteWrites (l₁ ++ l₂) = byteWrites l₁ ++ byteWrites l₂ := by
  induction l₁ with
  | nil => rfl
  | cons e es ih => cases e <;> simp [byteWrites, ih]

theorem byteWrites_tableWrites (v : Nat) (l : List Nat) :
    byteWrites (l.map (fun i => Event.tableWrite i v)) = [] := by
  induction l with
  | nil => rfl
  | cons i l ih => exact ih

/-- C9: under the compiled-in activation flags the setup sequence arms
exactly source 16: after running the whole trace, slot 16 of the vector
table holds `lc0_handler`'s address, every other in-range slot still holds
the default exception handler's address, and the byte stores of the whole
trace are exactly the `cliccfg` write, source 16's level/priority write and
source 16's enable write — no other per-source enable register is written. -/
theorem C9_arm_exactly_source16 (p : Platform) (s : MachineState) :
    (run s (mainTrace p)).table 16 = p.lc0HandlerAddr ∧
    (∀ i, i < p.numints → i ≠ 16 →
      (run s (mainTrace p)).table i = p.defaultHandlerAddr) ∧
    byteWrites (mainTrace p) =
      [ (HART0_CLICCFG_ADDR p, cliccfgValue),
        (HART0_CLICINTCFG_ADDR p 16, 255),
        (HART0_CLICINTIE_ADDR p 16, ENABLE) ] := by
  refine ⟨?_, ?_, ?_⟩
  · rw [run_mainTrace_table]
    simp
  · intro i hi hne
    rw [run_mainTrace_table]
    simp [hne, hi]
  · rw [mainTrace_phases]
    rw [show resetPhase p ++ (armPhase p ++ [globalEnableEvent])
        = (resetPhase p ++ armPhase p) ++ [globalEnableEvent] by
      rw [List.append_assoc]]
    rw [byteWrites_append, byteWrites_append]
    rw [show byteWrites (resetPhase p) = [] by
      show byteWrites (resetTableEvents p) = []
      rw [resetTableEvents]
      exact byteWrites_tableWrites _ _]
    rfl

/-- Witness for C9 at the demo platform: slot 16 holds `lc0_handler` and
slot 3 still holds the default handler. -/
theorem C9_arm_exactly_source16_witness :
    (run zeroState (mainTrace demoPlatform)).table 16 = demoPlatform.lc0HandlerAddr ∧
    (run zeroState (mainTrace demoPlatform)).table 3 = demoPlatform.defaultHandlerAddr :=
  ⟨(C9_arm_exactly_source16 demoPlatform zeroState).1,
   (C9_arm_exactly_source16 demoPlatform zeroState).2.1 3 (by decide) (by decide)⟩

/-! ## CLIC dispatch selection

Modelled from the spec: the dispatch logic is hardware behaviour, not code
of this repository.  Per the spec (and the comment block above
`clicintcfg = 255` in `main`), among the enabled-and-pending sources the
controller selects the one with the highest encoded level/priority byte,
and "in case there are multiple pending-and-enabled interrupts at the same
highest priority, the highest-numbered interrupt ID is taken first". -/

/-- Modelled from the spec: per-source hardware dispatch state of the CLIC —
the number of sources and, for each source ID, its enable bit, pending bit
and encoded level/priority byte (`clicintcfg`). -/
structure ClicState where
  n : Nat
  enabled : Nat → Bool
  pending : Nat → Bool
  cfg : Nat → Nat

/-- One comparison step of the selection scan: an enabled-and-pending
source `i` replaces the current best `j` when its encoded byte is strictly
higher, or equal with a higher source ID. -/
def selStep (s : ClicState) (acc : Option Nat) (i : Nat) : Option Nat :=
  if s.enabled i = true ∧ s.pending i = true then
    match acc with
    | none => some i
    | some j => if s.cfg j < s.cfg i ∨ (s.cfg i = s.cfg j ∧ j < i) then some i else some j
  else acc

/-- Modelled from the spec: the source the controller dispatches next — the
enabled-and-pending source with the highest encoded level/priority byte,
ties broken towards the highest-numbered source ID. -/
def clicSelect (s : ClicState) : Option Nat :=
  (List.range s.n).foldl (selStep s) none

/-- Clear the pending bit of source `i` (servicing the interrupt). -/
def clearPending (s : ClicState) (i : Nat) : ClicState :=
  { s with pending := fun x => if x = i then false else s.pending x }

/-- The order in which sources are dispatched: repeatedly select, invoke the
selected source's handler (which clears its pending condition), repeat. -/
def dispatchSeq (s : ClicState) : Nat → List Nat
  | 0 => []
  | fuel + 1 =>
    match clicSelect s with
    | none => []
    | some i => i :: dispatchSeq (clearPending s i) fuel

/-- `c` ranks strictly above `a` in the selection order. -/
def Beats (s : ClicState) (c a : Nat) : Prop :=
  s.cfg a < s.cfg c ∨ (s.cfg a ≤ s.cfg c ∧ a < c)

theorem selStep_preserves_beats (s : ClicState) (a i c : Nat) (hc : Beats s c a) :
    ∃ c', selStep s (some c) i = some c' ∧ Beats s c' a := by
  by_cases hcand : s.enabled i = true ∧ s.pending i = true
  · by_cases hcond : s.cfg c < s.cfg i ∨ (s.cfg i = s.cfg c ∧ c < i)
    · refine ⟨i, by simp only [selStep, if_pos hcand, if_pos hcond], ?_⟩
      unfold Beats at hc ⊢
      omega
    · exact ⟨c, by simp only [selStep, if_pos hcand, if_neg hcond], hc⟩
  · exact ⟨c, by simp only [selStep, if_neg hcand], hc⟩

theorem selStep_at_high (s : ClicState) (a b : Nat) (hab : a < b)
    (hcfg : s.cfg a ≤ s.cfg b) (hen : s.enabled b = true) (hpd : s.pending b = true)
    (acc : Option Nat) :
    ∃ c', selStep s acc b = some c' ∧ Beats s c' a := by
  have hcand : s.enabled b = true ∧ s.pending b = true := ⟨hen, hpd⟩
  cases acc with
  | none => exact ⟨b, by simp only [selStep, if_pos hcand], Or.inr ⟨hcfg, hab⟩⟩
  | some c =>
      by_cases hcond : s.cfg c < s.cfg b ∨ (s.cfg b = s.cfg c ∧ c < b)
      · exact ⟨b, by simp only [selStep, if_pos hcand, if_pos hcond],
          Or.inr ⟨hcfg, hab⟩⟩
      · refine ⟨c, by simp only [selStep, if_pos hcand, if_neg hcond], ?_⟩
        unfold Beats
        omega

theorem foldl_selStep_beats (s : ClicState) (a b : Nat) (hab : a < b)
    (hcfg : s.cfg a ≤ s.cfg b) (hen : s.enabled b = true) (hpd : s.pending b = true)
    (l : List Nat) :
    ∀ acc : Option Nat,
      (b ∈ l ∨ ∃ c, acc = some c ∧ Beats s c a) →
      ∃ c', List.foldl (selStep s) acc l = some c' ∧ Beats s c' a := by
  induction l with
  | nil =>
      rintro acc (h | ⟨c, rfl, hc⟩)
      · exact absurd h (List.not_mem_nil b)
      · exact ⟨c, rfl, hc⟩
  | cons i l ih =>
      rintro acc (h | ⟨c, rfl, hc⟩)
      · rcases List.mem_cons.1 h with rfl | hbl
        · obtain ⟨c', hc', hb'⟩ := selStep_at_high s a b hab hcfg hen hpd acc
          exact ih (selStep s acc b) (Or.inr ⟨c', hc', hb'⟩)
        · exact ih (selStep s acc i) (Or.inl hbl)
      · obtain ⟨c', hc', hb'⟩ := selStep_preserves_beats s a i c hc
        exact ih (selStep s (some c) i) (Or.inr ⟨c', hc', hb'⟩)

theorem clicSelect_ne_low (s : ClicState) (a b : Nat) (hab : a < b) (hbn : b < s.n)
    (hen : s.enabled b = true) (hpd : s.pending b = true) (hcfg : s.cfg a ≤ s.cfg b) :
    clicSelect s ≠ some a := by
  obtain ⟨c', hsel, hbeats⟩ := foldl_selStep_beats s a b hab hcfg hen hpd
    (List.range s.n) none (Or.inl (List.mem_range.2 hbn))
  rw [clicSelect, hsel]
  intro h
  injection h with h
  subst h
  unfold Beats at hbeats
  omega

/-- C5: among simultaneously enabled-and-pending sources with equal encoded
level/priority bytes, dispatch takes the highest-numbered source ID first:
if `a < b` are both enabled and pending with equal `clicintcfg` bytes, then
whenever `a`'s handler is invoked in the dispatch sequence, `b`'s handler
was invoked strictly earlier. -/
theorem C5_highest_id_first (s : ClicState) (a b fuel : Nat)
    (hab : a < b) (hbn : b < s.n)
    (henb : s.enabled b = true) (hpdb : s.pending b = true)
    (hcfg : s.cfg a = s.cfg b)
    (ha : a ∈ dispatchSeq s fuel) :
    (dispatchSeq s fuel).indexOf b < (dispatchSeq s fuel).indexOf a := by
  induction fuel generalizing s with
  | zero => exact absurd ha (List.not_mem_nil a)
  | succ fuel ih =>
      cases hsel : clicSelect s with
      | none =>
          rw [dispatchSeq] at ha ⊢
          rw [hsel] at ha ⊢
          exact absurd ha (List.not_mem_nil a)
      | some i =>
          have hia : i ≠ a := by
            intro h
            exact clicSelect_ne_low s a b hab hbn henb hpdb (le_of_eq hcfg) (h ▸ hsel)
          rw [dispatchSeq] at ha ⊢
          rw [hsel] at ha ⊢
          by_cases hib : i = b
          · subst hib
            rw [List.indexOf_cons_self]
            rw [List.indexOf_cons_ne _ hia]
            exact Nat.succ_pos _
          · have ha' : a ∈ dispatchSeq (clearPending s i) fuel := by
              rcases List.mem_cons.1 ha with h | h
              · exact absurd h.symm hia
              · exact h
            have henb' : (clearPending s i).enabled b = true := henb
            have hpdb' : (clearPending s i).pending b = true := by
              show (if b = i then false else s.pending b) = true
              rw [if_neg (fun h : b = i => hib h.symm)]
              exact hpdb
            have hres := ih (clearPending s i) hbn henb' hpdb' hcfg ha'
            rw [List.indexOf_cons_ne _ hib]
            rw [List.indexOf_cons_ne _ hia]
            exact Nat.succ_lt_succ hres

/-- A concrete dispatch state for witnesses: three sources, all enabled and
pending, all at the encoded byte 255 used by `main`. -/
def demoClicState : ClicState where
  n := 3
  enabled := fun _ => true
  pending := fun _ => true
  cfg := fun _ => 255

/-- Witness for C5: with sources 0 and 2 enabled and pending at equal
encoded bytes, source 0 is dispatched, and source 2 is dispatched before
it. -/
theorem C5_highest_id_first_witness :
    0 ∈ dispatchSeq demoClicState 3 ∧
    (dispatchSeq demoClicState 3).indexOf 2 < (dispatchSeq demoClicState 3).indexOf 0 :=
  ⟨by decide,
   C5_highest_id_first demoClicState 0 2 3 (by decide) (by decide) (by decide)
     (by decide) (by decide) (by decide)⟩
